import Mathlib

/-
Verification development for the TokenPriceConverter repository.

The Python sources are embedded shallowly:

  - src/core/node.py        : chain client.  Each retry loop is modelled as a
    recursion over the (finite prefix of the) stream of responses the JSON-RPC
    node would return; exhausting the stream without an answer yields none,
    which models the loop still retrying.
  - src/service/cache.py    : each Redis namespace is an association list.
  - src/service/calculation.py : metadata resolvers, swap-log parsing and the
    conversion pipeline.  Python floats are modelled as exact rationals; the
    rustworkx all-shortest-paths call is modelled by breadth-first enumeration
    of walks (uniform edge weight, the trivial path connects a node to itself).

Machine integers in the sources are unbounded Python ints, so Nat and Int are
used directly.
-/

namespace TokenPriceConverter

/- ### Hex parsing helpers (Python int(s, 16), bytes.fromhex, int.from_bytes) -/

/-- Value of one hexadecimal digit, none on a non-digit character. -/
def hexDigit? (c : Char) : Option Nat :=
  if '0' ≤ c ∧ c ≤ '9' then some (c.toNat - '0'.toNat)
  else if 'a' ≤ c ∧ c ≤ 'f' then some (c.toNat - 'a'.toNat + 10)
  else if 'A' ≤ c ∧ c ≤ 'F' then some (c.toNat - 'A'.toNat + 10)
  else none

/-- Python int(s, 16): an optional 0x prefix followed by at least one hex
digit; none models the ValueError raised on malformed input. -/
def parseHexNat? (s : String) : Option Nat :=
  let ds : List Char :=
    match s.data with
    | '0' :: 'x' :: rest => rest
    | l => l
  if ds.isEmpty then none
  else ds.foldl (fun acc c =>
    match acc, hexDigit? c with
    | some a, some d => some (a * 16 + d)
    | _, _ => none) (some 0)

/-- Value of one hexadecimal digit, defaulting to 0 (only reached on inputs
where the Python original would raise, which the spec calls fatal). -/
def hexDigitVal (c : Char) : Nat := (hexDigit? c).getD 0

/-- Python bytes.fromhex: consecutive pairs of hex characters become bytes. -/
def bytesFromHex : List Char → List Nat
  | c1 :: c2 :: rest => (hexDigitVal c1 * 16 + hexDigitVal c2) :: bytesFromHex rest
  | _ => []

/-- Python int.from_bytes(bs, byteorder=big, signed=True): the big-endian
value of the bytes, reinterpreted in two's complement. -/
def intFromBytesSigned (bs : List Nat) : Int :=
  let n : Nat := bs.foldl (fun acc b => acc * 256 + b) 0
  if 2 * n < 256 ^ bs.length then (n : Int) else (n : Int) - (256 ^ bs.length : Int)

/-- Python str.lower (the addresses are ASCII, so this is a character map;
String.toLower recurses on byte positions, which does not reduce in the
kernel, so the same map is taken over the character list). -/
def lower (s : String) : String := String.mk (s.data.map Char.toLower)

/-- abs(int.from_bytes(bytes.fromhex(data[lo:hi]), signed=True)) from
src/service/calculation.py, get_swaps. -/
def parseAmount (data : String) (lo hi : Nat) : Nat :=
  (intFromBytesSigned (bytesFromHex ((data.data.drop lo).take (hi - lo)))).natAbs

/- ### Chain client, src/core/node.py

A single HTTP attempt either yields a status code with a body or fails at the
transport layer (connection refused, malformed response, ...), which in the
Python code surfaces as an exception from session.post or from response
processing. -/

inductive NodeResp (α : Type) where
  | http (status : Nat) (body : α)
  | transportError
deriving Repr, DecidableEq

/-- The post-processing of a 200 response in get_single_pool_token_async:
the token address is hex characters 26 to 66 of the returned word. -/
def parse_pool_token_result (result : String) : String :=
  "0x" ++ String.mk ((result.data.drop 26).take 40)

/-- src/core/node.py get_single_pool_token_async, as a function of the
response stream.  The non-200 branch raises inside the try block, so every
non-200 status (429 and any other) is caught by the except handler and
retried after a sleep; transport errors are retried the same way.  The loop
only ever exits by returning on a 200 response. -/
def get_single_pool_token_async : List (NodeResp String) → Option String
  | [] => none
  | NodeResp.transportError :: rest => get_single_pool_token_async rest
  | NodeResp.http status body :: rest =>
    if status == 200 then some (parse_pool_token_result body)
    else get_single_pool_token_async rest

/-- src/core/node.py get_raw_swap_logs.  A non-200 status is logged and
retried after a sleep, but the except handler starts with a bare raise, so a
transport error propagates to the caller (the retry code below it is dead). -/
def get_raw_swap_logs {α : Type} : List (NodeResp α) → Option (Except Unit α)
  | [] => none
  | NodeResp.transportError :: _ => some (Except.error ())
  | NodeResp.http status body :: rest =>
    if status == 200 then some (Except.ok body)
    else get_raw_swap_logs rest

namespace Node

/-- src/core/node.py get_token_decimals.  On a 200 response the body is
parsed with int(result, 16); a parse failure raises inside the try block and
is therefore caught and retried, like every other error. -/
def get_token_decimals : List (NodeResp String) → Option Nat
  | [] => none
  | NodeResp.transportError :: rest => get_token_decimals rest
  | NodeResp.http status body :: rest =>
    if status == 200 then
      match parseHexNat? body with
      | some d => some d
      | none => get_token_decimals rest
    else get_token_decimals rest

end Node

/- ### Metadata cache, src/service/cache.py

Each Redis namespace (pool pairs, token decimals, token symbols) is a
key-value store; set overwrites, get returns the latest write. -/

def CacheMap (V : Type) : Type := List (String × V)

/-- Redis get / exists: the most recent write to the key, if any. -/
def cacheGet {V : Type} (c : CacheMap V) (k : String) : Option V :=
  (List.find? (fun p => p.fst == k) c).map Prod.snd

/-- Redis set: overwrite the key. -/
def cacheSet {V : Type} (c : CacheMap V) (k : String) (v : V) : CacheMap V :=
  (k, v) :: c

/- ### Metadata resolvers, src/service/calculation.py

The underlying chain fetch is abstracted as a function from the address to
an Except: ok models a returned value, error models the fetch raising (the
payload is the message of the raised exception). -/

inductive ResolveError where
  | contractNotFound (msg : String)
  | other (msg : String)
deriving Repr, DecidableEq

structure ResolveOutcome (V : Type) where
  result : Except ResolveError V
  cache : CacheMap V
  fetchCalls : Nat

namespace Calculation

/-- src/service/calculation.py get_token_decimals: read the cache; on a miss
fetch from the node; wrap a fetch error in ContractNotFoundException; write
the cache (also on a hit) and return. -/
def get_token_decimals (fetch : String → Except String Nat)
    (cache : CacheMap Nat) (token_address : String) : ResolveOutcome Nat :=
  match cacheGet cache token_address with
  | some decimals =>
    { result := Except.ok decimals,
      cache := cacheSet cache token_address decimals, fetchCalls := 0 }
  | none =>
    match fetch token_address with
    | Except.ok decimals =>
      { result := Except.ok decimals,
        cache := cacheSet cache token_address decimals, fetchCalls := 1 }
    | Except.error _ =>
      { result := Except.error
          (ResolveError.contractNotFound ("Token contract not found: " ++ token_address)),
        cache := cache, fetchCalls := 1 }

/-- src/service/calculation.py get_pool_tokens: read the cache; on a miss
fetch from the node.  The except handler is a bare raise of the caught
exception, so a fetch error propagates unchanged and the line raising
ContractNotFoundException below it is unreachable. -/
def get_pool_tokens (fetch : String → Except String (String × String))
    (cache : CacheMap (String × String)) (pool_address : String) :
    ResolveOutcome (String × String) :=
  match cacheGet cache pool_address with
  | some tokens =>
    { result := Except.ok tokens,
      cache := cacheSet cache pool_address tokens, fetchCalls := 0 }
  | none =>
    match fetch pool_address with
    | Except.ok tokens =>
      { result := Except.ok tokens,
        cache := cacheSet cache pool_address tokens, fetchCalls := 1 }
    | Except.error e =>
      { result := Except.error (ResolveError.other e),
        cache := cache, fetchCalls := 1 }

end Calculation

/- ### Swap records, src/service/calculation.py -/

structure SwapEvent where
  block_number : Nat
  transaction_hash : String
  log_index : Nat
  address : String
  from_token : String
  to_token : String
  from_amount : Nat
  to_amount : Nat
deriving Repr, DecidableEq

/-- to_amount / from_amount as a rational (models the Python float; the
rational convention x / 0 = 0 stands in for the ZeroDivisionError a
zero-amount swap would raise, which no claim exercises). -/
def SwapEvent.ratio (s : SwapEvent) : ℚ :=
  (s.to_amount : ℚ) / (s.from_amount : ℚ)

/-- One raw log entry as returned by eth_getLogs: all fields are hex
strings except the transaction hash, which is kept verbatim. -/
structure RawLog where
  blockNumber : String
  transactionHash : String
  logIndex : String
  address : String
  data : String
deriving Repr, DecidableEq

/-- The per-log body of src/service/calculation.py get_swaps: the pool of
the log is resolved to its token pair, addresses are lower-cased and the two
signed 256-bit amounts are read from the data payload with their absolute
values taken. -/
def parseSwapLog (pool_tokens : String → String × String) (log : RawLog) : SwapEvent :=
  -- A malformed blockNumber or logIndex would raise in Python (a fatal
  -- malformed-log error per the spec); the total model defaults them to 0.
  let pair := pool_tokens log.address
  { block_number := (parseHexNat? log.blockNumber).getD 0,
    transaction_hash := log.transactionHash,
    log_index := (parseHexNat? log.logIndex).getD 0,
    address := lower log.address,
    from_token := lower pair.fst,
    to_token := lower pair.snd,
    from_amount := parseAmount log.data 2 66,
    to_amount := parseAmount log.data 66 130 }

/-- src/service/calculation.py get_swaps, with the pool resolution step
abstracted as a map from pool address to token pair. -/
def get_swaps (pool_tokens : String → String × String) (logs : List RawLog) :
    List SwapEvent :=
  logs.map (parseSwapLog pool_tokens)

/- ### Swap graph and shortest paths, src/service/calculation.py

The rustworkx PyGraph built by get_token_conversion_rate has one node per
distinct token seen in the swaps and one undirected edge per swap, carrying
the swap as payload.  The node set and the adjacency relation are read off
the swap list directly. -/

/-- The distinct token addresses appearing in the swaps (the graph nodes). -/
def swapTokens (swaps : List SwapEvent) : List String :=
  (swaps.flatMap (fun s => [s.from_token, s.to_token])).dedup

/-- Whether some swap connects the two tokens (an undirected edge). -/
def hasSwapEdge (swaps : List SwapEvent) (u v : String) : Bool :=
  swaps.any (fun s =>
    (s.from_token == u && s.to_token == v) || (s.from_token == v && s.to_token == u))

/-- PyGraph.get_edge_data: the payload of an edge between the two nodes.
With parallel edges rustworkx returns one of them; the first matching swap
is the canonical choice here. -/
def get_edge_data (swaps : List SwapEvent) (u v : String) : Option SwapEvent :=
  swaps.find? (fun s =>
    (s.from_token == u && s.to_token == v) || (s.from_token == v && s.to_token == u))

/-- Extend every walk (kept in reverse, most recent node first) by one edge. -/
def extendWalks (swaps : List SwapEvent) (nodes : List String)
    (ws : List (List String)) : List (List String) :=
  ws.flatMap (fun w =>
    match w with
    | [] => []
    | u :: _ => (nodes.filter (fun v => hasSwapEdge swaps u v)).map (fun v => v :: w))

/-- All walks of exactly k edges starting at s, in reverse order. -/
def walksOfLength (swaps : List SwapEvent) (nodes : List String) (s : String) :
    Nat → List (List String)
  | 0 => [[s]]
  | k + 1 => extendWalks swaps nodes (walksOfLength swaps nodes s k)

/-- The k-edge walks from s that end at t, returned in path order. -/
def hitsAt (swaps : List SwapEvent) (nodes : List String) (s t : String)
    (k : Nat) : List (List String) :=
  ((walksOfLength swaps nodes s k).filter (fun w => w.head? == some t)).map List.reverse

/-- The hits at the smallest number of edges up to the fuel bound. -/
def searchShortest (swaps : List SwapEvent) (nodes : List String) (s t : String) :
    Nat → List (List String)
  | 0 => hitsAt swaps nodes s t 0
  | k + 1 =>
    let prev := searchShortest swaps nodes s t k
    if prev.isEmpty then hitsAt swaps nodes s t (k + 1) else prev

/-- Model of rx.graph_all_shortest_paths on the swap graph: every path with
the minimum number of edge hops between the two tokens (a shortest path
repeats no node, so the node count bounds the search).  For equal source and
target the single trivial path is returned. -/
def graph_all_shortest_paths (swaps : List SwapEvent) (s t : String) :
    List (List String) :=
  let nodes := swapTokens swaps
  searchShortest swaps nodes s t nodes.length

/- ### Ratio aggregation and decimal scaling, src/service/calculation.py -/

/-- One iteration of the aggregation loop in get_token_conversion_rate: the
payload of the edge between the two consecutive path nodes multiplies the
running ratio when traversed in its recorded direction and divides it when
traversed against it.  (A missing edge would raise in rustworkx; it cannot
occur on a path produced from the graph, and leaves the ratio unchanged
here.) -/
def stepRatio (swaps : List SwapEvent) (acc : ℚ) (u v : String) : ℚ :=
  match get_edge_data swaps u v with
  | none => acc
  | some s =>
    if s.from_token == u && s.to_token == v then acc * SwapEvent.ratio s
    else if s.to_token == u && s.from_token == v then acc / SwapEvent.ratio s
    else acc

/-- The aggregation loop over consecutive pairs of path nodes. -/
def aggregateRatio (swaps : List SwapEvent) : ℚ → List String → ℚ
  | acc, u :: v :: rest => aggregateRatio swaps (stepRatio swaps acc u v) (v :: rest)
  | acc, _ => acc

/-- The decimal adjustment at the end of get_token_conversion_rate:
first multiply by 10 ** token0_decimals, then divide by 10 ** token1_decimals. -/
def scaleByDecimals (r : ℚ) (token0_decimals token1_decimals : Nat) : ℚ :=
  r * 10 ^ token0_decimals / 10 ^ token1_decimals

/- ### Conversion pipeline, src/service/calculation.py -/

/-- The two raise sites of get_token_conversion_rate after ingestion: a
requested token absent from the swap graph, and an empty shortest-path set. -/
inductive ConversionError where
  | tokenNotFound (token : String)
  | noPath (token0 token1 : String)
deriving Repr, DecidableEq

/-- The fields of the returned dictionary that the conversion itself
computes (the symbols are fetched, cleaned and passed through unchanged). -/
structure ConversionResult where
  conversion_rate : ℚ
  token0_decimals : Nat
  token1_decimals : Nat
  token_pair_path : List String
deriving Repr, DecidableEq

/-- src/service/calculation.py get_token_conversion_rate, from the parsed
swap list on: lower-case the requested addresses, build the swap graph,
fail if either token is not a node, take the first of the shortest paths
(unique in every scenario considered here), fail if there is none, aggregate
the per-edge ratios along it and apply the decimal adjustment.  The decimals
of the two tokens stand for the awaited resolver results. -/
def get_token_conversion_rate (swaps : List SwapEvent) (token0 token1 : String)
    (token0_decimals token1_decimals : Nat) :
    Except ConversionError ConversionResult :=
  let token0 := lower token0
  let token1 := lower token1
  let nodes := swapTokens swaps
  if token0 ∈ nodes then
    if token1 ∈ nodes then
      let paths := graph_all_shortest_paths swaps token0 token1
      match paths.head? with
      | none => Except.error (ConversionError.noPath token0 token1)
      | some path =>
        let total_ratio := aggregateRatio swaps 1 path
        Except.ok
          { conversion_rate := scaleByDecimals total_ratio token0_decimals token1_decimals,
            token0_decimals := token0_decimals,
            token1_decimals := token1_decimals,
            token_pair_path := path }
    else Except.error (ConversionError.tokenNotFound token1)
  else Except.error (ConversionError.tokenNotFound token0)

/- ### Walks and connectivity of the swap graph (for the disconnection claim) -/

/-- p is a walk from s to t in the swap graph: it starts at s, ends at t and
every consecutive pair of nodes is joined by some swap edge. -/
def IsSwapWalk (swaps : List SwapEvent) (s t : String) (p : List String) : Prop :=
  p.head? = some s ∧ p.getLast? = some t ∧
    List.Chain' (fun u v => hasSwapEdge swaps u v = true) p

/-- The two tokens lie in the same connected component of the swap graph. -/
def SwapConnected (swaps : List SwapEvent) (s t : String) : Prop :=
  ∃ p, IsSwapWalk swaps s t p

/- ### Concrete scenarios used by the testable properties -/

/-- One swap in pool 0xp with token0 = 0xa, token1 = 0xb, fromAmount 1000,
toAmount 2000 (ratio 2). -/
def swapAB : SwapEvent :=
  { block_number := 100, transaction_hash := "0xt1", log_index := 0,
    address := "0xp", from_token := "0xa", to_token := "0xb",
    from_amount := 1000, to_amount := 2000 }

/-- A swap recorded from 0xc to 0xb with fromAmount 1000, toAmount 500
(ratio 0.5). -/
def swapCB : SwapEvent :=
  { block_number := 100, transaction_hash := "0xt2", log_index := 1,
    address := "0xq", from_token := "0xc", to_token := "0xb",
    from_amount := 1000, to_amount := 500 }

/-- A swap between 0xc and 0xd, disconnected from swapAB. -/
def swapCD : SwapEvent :=
  { block_number := 100, transaction_hash := "0xt3", log_index := 2,
    address := "0xr", from_token := "0xc", to_token := "0xd",
    from_amount := 7, to_amount := 21 }

/-- A raw log whose data payload carries fromAmount as the signed 256-bit
value -1000 (two's complement) and toAmount as 500. -/
def negAmountLog : RawLog :=
  { blockNumber := "0x64", transactionHash := "0xt9", logIndex := "0x0",
    address := "0xP",
    data := "0xfffffffffffffffffffffffffffffffffffffffffffffffffffffffffffffc1800000000000000000000000000000000000000000000000000000000000001f4" }

/-- The swap record parsed from negAmountLog, the pool resolving to the
token pair (0xa, 0xb). -/
def negSwap : SwapEvent := parseSwapLog (fun _ => ("0xa", "0xb")) negAmountLog

/-- A response the retry loops absorb: a transport error or any non-200
status (429 and fatal statuses alike). -/
def isNonSuccess {α : Type} : NodeResp α → Bool
  | NodeResp.transportError => true
  | NodeResp.http status _ => status != 200

/-- An HTTP response with a non-200 status (not a transport failure). -/
def isHttpNonSuccess {α : Type} : NodeResp α → Bool
  | NodeResp.transportError => false
  | NodeResp.http status _ => status != 200

/- ### Helper lemmas -/

/-- Evaluation shape of the conversion on the success path: when both tokens
are nodes and the shortest-path search returns a first path, the result is
the aggregated ratio of that path, decimal-adjusted. -/
theorem conv_rate_eval (swaps : List SwapEvent) (token0 token1 : String)
    (d0 d1 : Nat) (path : List String)
    (h0 : lower token0 ∈ swapTokens swaps)
    (h1 : lower token1 ∈ swapTokens swaps)
    (hp : (graph_all_shortest_paths swaps (lower token0) (lower token1)).head? = some path) :
    get_token_conversion_rate swaps token0 token1 d0 d1 =
      Except.ok { conversion_rate := scaleByDecimals (aggregateRatio swaps 1 path) d0 d1,
                  token0_decimals := d0, token1_decimals := d1,
                  token_pair_path := path } := by
  unfold get_token_conversion_rate
  rw [if_pos h0, if_pos h1]
  simp only [hp]

/-- The cache serves a key right after it was written. -/
theorem cacheGet_cacheSet_self {V : Type} (c : CacheMap V) (k : String) (v : V) :
    cacheGet (cacheSet c k v) k = some v := by
  simp [cacheGet, cacheSet, List.find?]

/-- Swap edges are undirected. -/
theorem hasSwapEdge_comm (swaps : List SwapEvent) (u v : String) :
    hasSwapEdge swaps u v = hasSwapEdge swaps v u := by
  unfold hasSwapEdge
  induction swaps with
  | nil => rfl
  | cons s rest ih =>
    simp only [List.any_cons, ih]
    congr 1
    rw [Bool.or_comm]

/-- Every enumerated walk ends (in reverse order) at the start node and all
its consecutive nodes are adjacent. -/
theorem walksOfLength_sound (swaps : List SwapEvent) (nodes : List String)
    (s : String) :
    ∀ k w, w ∈ walksOfLength swaps nodes s k →
      w.getLast? = some s ∧
        List.Chain' (fun u v => hasSwapEdge swaps u v = true) w := by
  intro k
  induction k with
  | zero =>
    intro w hw
    simp only [walksOfLength, List.mem_singleton] at hw
    subst hw
    exact ⟨rfl, List.chain'_singleton s⟩
  | succ k ih =>
    intro w hw
    simp only [walksOfLength, extendWalks, List.mem_flatMap] at hw
    obtain ⟨w', hw', hmem⟩ := hw
    match w', hmem with
    | [], hmem => exact absurd hmem (List.not_mem_nil w)
    | u :: tail, hmem =>
      simp only [List.mem_map, List.mem_filter] at hmem
      obtain ⟨v, ⟨_, hadj⟩, rfl⟩ := hmem
      obtain ⟨hlast, hchain⟩ := ih (u :: tail) hw'
      refine ⟨?_, List.chain'_cons.mpr ⟨?_, hchain⟩⟩
      · rw [List.getLast?_cons_cons]
        exact hlast
      · rw [hasSwapEdge_comm]
        exact hadj

/-- Every path produced at some search depth is a swap-graph walk from s to t. -/
theorem hitsAt_sound (swaps : List SwapEvent) (nodes : List String)
    (s t : String) (k : Nat) (p : List String)
    (hp : p ∈ hitsAt swaps nodes s t k) : IsSwapWalk swaps s t p := by
  simp only [hitsAt, List.mem_map, List.mem_filter] at hp
  obtain ⟨w, ⟨hw, hhead⟩, rfl⟩ := hp
  obtain ⟨hlast, hchain⟩ := walksOfLength_sound swaps nodes s k w hw
  have hhead' : w.head? = some t := by simpa using hhead
  refine ⟨?_, ?_, ?_⟩
  · rw [List.head?_reverse]
    exact hlast
  · rw [List.getLast?_reverse]
    exact hhead'
  · rw [List.chain'_reverse]
    exact hchain.imp (fun a b h => (hasSwapEdge_comm swaps b a).trans h)

/-- The layered search only returns paths found at some depth. -/
theorem searchShortest_sound (swaps : List SwapEvent) (nodes : List String)
    (s t : String) :
    ∀ k p, p ∈ searchShortest swaps nodes s t k →
      ∃ j, p ∈ hitsAt swaps nodes s t j := by
  intro k
  induction k with
  | zero => intro p hp; exact ⟨0, hp⟩
  | succ k ih =>
    intro p hp
    simp only [searchShortest] at hp
    by_cases h : (searchShortest swaps nodes s t k).isEmpty
    · rw [if_pos h] at hp
      exact ⟨k + 1, hp⟩
    · rw [if_neg h] at hp
      exact ih p hp

/-- Any path returned by the all-shortest-paths model witnesses connectivity. -/
theorem graph_all_shortest_paths_sound (swaps : List SwapEvent) (s t : String)
    (p : List String) (hp : p ∈ graph_all_shortest_paths swaps s t) :
    SwapConnected swaps s t := by
  obtain ⟨j, hj⟩ := searchShortest_sound swaps (swapTokens swaps) s t _ p hp
  exact ⟨p, hitsAt_sound swaps (swapTokens swaps) s t j p hj⟩

/-- With equal source and target the search stabilizes on the trivial path. -/
theorem searchShortest_self (swaps : List SwapEvent) (nodes : List String)
    (s : String) : ∀ k, searchShortest swaps nodes s s k = [[s]] := by
  intro k
  have h0 : hitsAt swaps nodes s s 0 = [[s]] := by
    simp [hitsAt, walksOfLength]
  induction k with
  | zero => exact h0
  | succ k ih => simp [searchShortest, ih]

/-- If a Boolean set of tokens is closed under swap edges, walks cannot
leave it. -/
theorem swapWalk_closed (swaps : List SwapEvent) (S : String → Bool)
    (hS : ∀ u v, S u = true → hasSwapEdge swaps u v = true → S v = true) :
    ∀ p s t, IsSwapWalk swaps s t p → S s = true → S t = true := by
  intro p
  induction p with
  | nil =>
    intro s t h _
    exact absurd h.1 (by simp)
  | cons a q ih =>
    intro s t h hs
    have ha : a = s := by simpa using h.1
    cases q with
    | nil =>
      have ht : a = t := by simpa using h.2.1
      rw [← ht, ha]
      exact hs
    | cons b q' =>
      have hcc := List.chain'_cons.mp h.2.2
      have hlast : (b :: q').getLast? = some t := by
        have hl := h.2.1
        rwa [List.getLast?_cons_cons] at hl
      exact ih b t ⟨rfl, hlast, hcc.2⟩ (hS a b (ha ▸ hs) hcc.1)

/-- The pool-token call ignores any prefix of transport errors and non-200
responses. -/
theorem get_single_pool_token_async_skips (pre : List (NodeResp String))
    (h : ∀ r ∈ pre, isNonSuccess r = true) (rest : List (NodeResp String)) :
    get_single_pool_token_async (pre ++ rest) = get_single_pool_token_async rest := by
  induction pre with
  | nil => rfl
  | cons r rs ih =>
    have hr := h r (List.mem_cons_self r rs)
    have ih' := ih (fun x hx => h x (List.mem_cons_of_mem r hx))
    cases r with
    | transportError =>
      simpa [get_single_pool_token_async] using ih'
    | http status body =>
      have hs : (status == 200) = false := by
        simp only [isNonSuccess, bne_iff_ne, ne_eq] at hr
        simpa using hr
      simpa [get_single_pool_token_async, hs] using ih'

/-- The raw-log call ignores any prefix of non-200 HTTP responses. -/
theorem get_raw_swap_logs_skips {α : Type} (pre : List (NodeResp α))
    (h : ∀ r ∈ pre, isHttpNonSuccess r = true) (rest : List (NodeResp α)) :
    get_raw_swap_logs (pre ++ rest) = get_raw_swap_logs rest := by
  induction pre with
  | nil => rfl
  | cons r rs ih =>
    have hr := h r (List.mem_cons_self r rs)
    have ih' := ih (fun x hx => h x (List.mem_cons_of_mem r hx))
    cases r with
    | transportError => exact absurd hr (by simp [isHttpNonSuccess])
    | http status body =>
      have hs : (status == 200) = false := by
        simp only [isHttpNonSuccess, bne_iff_ne, ne_eq] at hr
        simpa using hr
      simpa [get_raw_swap_logs, hs] using ih'

/-- In the two-swap scenario with pools a-b and c-d, every walk from 0xa
stays inside the component of 0xa and 0xb, so 0xc is unreachable. -/
theorem not_connected_ab_cd : ¬ SwapConnected [swapAB, swapCD] "0xa" "0xc" := by
  rintro ⟨p, hw⟩
  have hS : ∀ u v, (u == "0xa" || u == "0xb") = true →
      hasSwapEdge [swapAB, swapCD] u v = true → (v == "0xa" || v == "0xb") = true := by
    intro u v hu he
    simp only [hasSwapEdge, swapAB, swapCD, List.any_cons, List.any_nil,
      Bool.or_false, Bool.or_eq_true, Bool.and_eq_true, beq_iff_eq] at he
    rcases he with (⟨h1, h2⟩ | ⟨h1, h2⟩) | (⟨h1, h2⟩ | ⟨h1, h2⟩) <;>
      (subst h1; subst h2) <;> simp_all
  have := swapWalk_closed [swapAB, swapCD]
    (fun x => x == "0xa" || x == "0xb") hS p "0xa" "0xc" hw (by decide)
  simp at this

/- ### Claims -/

/-- C1: for a block window with exactly one pool with token0 = A, token1 = B
and one swap record from A to B with fromAmount 1000 and toAmount 2000, the
conversion of A to B with both decimals 18 returns conversion rate 2.0 and
path A, B. -/
theorem end_to_end_single_pool_conversion :
    get_token_conversion_rate [swapAB] "0xa" "0xb" 18 18 =
      Except.ok { conversion_rate := 2, token0_decimals := 18, token1_decimals := 18,
                  token_pair_path := ["0xa", "0xb"] } := by
  rw [conv_rate_eval [swapAB] "0xa" "0xb" 18 18 ["0xa", "0xb"]
      (by decide) (by decide) (by decide)]
  have hedge : get_edge_data [swapAB] "0xa" "0xb" = some swapAB := by decide
  simp only [aggregateRatio, stepRatio]
  rw [hedge]
  norm_num [swapAB, SwapEvent.ratio, scaleByDecimals]

/-- C2: walking the path edge by edge multiplies by the ratio of an edge
record traversed in its own direction and divides by the ratio of one
traversed against it; for the two-hop path A, B, C built from the record
A to B with ratio 2 and the record C to B with ratio 0.5, the aggregated
ratio is 2 / 0.5 = 4, both in the aggregation loop and in the full
conversion. -/
theorem direction_aware_ratio_aggregation :
    aggregateRatio [swapAB, swapCB] 1 ["0xa", "0xb", "0xc"] = 4 ∧
    get_token_conversion_rate [swapAB, swapCB] "0xa" "0xc" 18 18 =
      Except.ok { conversion_rate := 4, token0_decimals := 18, token1_decimals := 18,
                  token_pair_path := ["0xa", "0xb", "0xc"] } := by
  have he1 : get_edge_data [swapAB, swapCB] "0xa" "0xb" = some swapAB := by decide
  have he2 : get_edge_data [swapAB, swapCB] "0xb" "0xc" = some swapCB := by decide
  have hagg : aggregateRatio [swapAB, swapCB] 1 ["0xa", "0xb", "0xc"] = 4 := by
    simp only [aggregateRatio, stepRatio]
    rw [he1, he2]
    norm_num [swapAB, swapCB, SwapEvent.ratio]
    exact fun h => absurd h (by decide)
  refine ⟨hagg, ?_⟩
  rw [conv_rate_eval [swapAB, swapCB] "0xa" "0xc" 18 18 ["0xa", "0xb", "0xc"]
      (by decide) (by decide) (by decide)]
  rw [hagg]
  norm_num [scaleByDecimals]

/-- C3: the decimal adjustment computes exactly r * 10 ^ d0 / 10 ^ d1, and
applying it again with the decimals swapped recovers r exactly (the floats
of the source are modelled as exact rationals, so the tolerance is 0). -/
theorem decimal_scaling_round_trip (r : ℚ) (d0 d1 : Nat) :
    scaleByDecimals r d0 d1 = r * 10 ^ d0 / 10 ^ d1 ∧
    scaleByDecimals (scaleByDecimals r d0 d1) d1 d0 = r := by
  refine ⟨rfl, ?_⟩
  unfold scaleByDecimals
  have h0 : (10 : ℚ) ^ d0 ≠ 0 := pow_ne_zero d0 (by norm_num)
  have h1 : (10 : ℚ) ^ d1 ≠ 0 := pow_ne_zero d1 (by norm_num)
  field_simp

/-- C6: when the lower-cased source token (or target token) has no incident
edge in the swap graph, i.e. appears in no swap of the window, the
conversion fails with the token-not-found error and returns no numeric
result. -/
theorem missing_token_failure (swaps : List SwapEvent) (token0 token1 : String)
    (d0 d1 : Nat)
    (h : lower token0 ∉ swapTokens swaps ∨ lower token1 ∉ swapTokens swaps) :
    ∃ t, get_token_conversion_rate swaps token0 token1 d0 d1 =
      Except.error (ConversionError.tokenNotFound t) := by
  unfold get_token_conversion_rate
  by_cases h0 : lower token0 ∈ swapTokens swaps
  · have h1 : lower token1 ∉ swapTokens swaps := by
      rcases h with h | h
      · exact absurd h0 h
      · exact h
    rw [if_pos h0, if_neg h1]
    exact ⟨lower token1, rfl⟩
  · rw [if_neg h0]
    exact ⟨lower token0, rfl⟩

/-- C6 witness: converting from a token absent from the single-swap window
fails with the token-not-found error. -/
theorem missing_token_failure_witness :
    ∃ t, get_token_conversion_rate [swapAB] "0xc" "0xb" 18 18 =
      Except.error (ConversionError.tokenNotFound t) :=
  missing_token_failure [swapAB] "0xc" "0xb" 18 18 (Or.inl (by decide))

/-- C7: when both tokens are nodes of the swap graph but no walk connects
them, the conversion fails with the no-path error and returns no numeric
result. -/
theorem disconnected_graph_failure (swaps : List SwapEvent) (token0 token1 : String)
    (d0 d1 : Nat)
    (h0 : lower token0 ∈ swapTokens swaps) (h1 : lower token1 ∈ swapTokens swaps)
    (hdisc : ¬ SwapConnected swaps (lower token0) (lower token1)) :
    get_token_conversion_rate swaps token0 token1 d0 d1 =
      Except.error (ConversionError.noPath (lower token0) (lower token1)) := by
  have hnil : graph_all_shortest_paths swaps (lower token0) (lower token1) = [] := by
    cases hne : graph_all_shortest_paths swaps (lower token0) (lower token1) with
    | nil => rfl
    | cons p ps =>
      have hmem : p ∈ graph_all_shortest_paths swaps (lower token0) (lower token1) := by
        rw [hne]
        exact List.mem_cons_self p ps
      exact absurd (graph_all_shortest_paths_sound swaps _ _ p hmem) hdisc
  unfold get_token_conversion_rate
  rw [if_pos h0, if_pos h1]
  simp only [hnil, List.head?_nil]

/-- C7 witness: with one pool on a-b and one on c-d, converting a to c
fails with the no-path error. -/
theorem disconnected_graph_failure_witness :
    get_token_conversion_rate [swapAB, swapCD] "0xa" "0xc" 18 18 =
      Except.error (ConversionError.noPath (lower "0xa") (lower "0xc")) :=
  disconnected_graph_failure [swapAB, swapCD] "0xa" "0xc" 18 18
    (by decide) (by decide)
    (by
      have hl0 : lower "0xa" = "0xa" := by decide
      have hl1 : lower "0xc" = "0xc" := by decide
      rw [hl0, hl1]
      exact not_connected_ab_cd)

/-- C8: the data payload of a raw swap log is read as two back-to-back
signed 256-bit integers at hex-character offsets 2-66 and 66-130 and their
absolute values are taken: a log encoding fromAmount as the signed value
-1000 and toAmount as 500 parses to fromAmount 1000 and toAmount 500, with
ratio 0.5. -/
theorem amount_parsing_signed_abs :
    intFromBytesSigned (bytesFromHex ((negAmountLog.data.data.drop 2).take 64)) = -1000 ∧
    negSwap.from_amount = 1000 ∧ negSwap.to_amount = 500 ∧
    SwapEvent.ratio negSwap = 1 / 2 := by
  have hfrom : negSwap.from_amount = 1000 := by decide
  have hto : negSwap.to_amount = 500 := by decide
  refine ⟨by decide, hfrom, hto, ?_⟩
  simp only [SwapEvent.ratio, hfrom, hto]
  norm_num

/-- C10: when source and target are the same token and it is a node of the
swap graph, the chosen path is the single-node path, the aggregation loop
runs zero times and the conversion returns rate 1 (the raw ratio 1 scaled
by 10 ^ d / 10 ^ d) with a one-node path, raising no error. -/
theorem identical_tokens_unit_rate (swaps : List SwapEvent) (token : String)
    (d : Nat) (h : lower token ∈ swapTokens swaps) :
    get_token_conversion_rate swaps token token d d =
      Except.ok { conversion_rate := 1, token0_decimals := d, token1_decimals := d,
                  token_pair_path := [lower token] } := by
  have hp : (graph_all_shortest_paths swaps (lower token) (lower token)).head? =
      some [lower token] := by
    simp only [graph_all_shortest_paths, searchShortest_self]
    rfl
  rw [conv_rate_eval swaps token token d d [lower token] h h hp]
  have hagg : aggregateRatio swaps 1 [lower token] = 1 := rfl
  rw [hagg]
  have h10 : (10 : ℚ) ^ d ≠ 0 := pow_ne_zero d (by norm_num)
  simp [scaleByDecimals, div_self h10]

/-- C10 witness: converting 0xa to 0xa over the single-swap window returns
rate 1 and the one-node path. -/
theorem identical_tokens_unit_rate_witness :
    get_token_conversion_rate [swapAB] "0xa" "0xa" 18 18 =
      Except.ok { conversion_rate := 1, token0_decimals := 18, token1_decimals := 18,
                  token_pair_path := [lower "0xa"] } :=
  identical_tokens_unit_rate [swapAB] "0xa" 18 (by decide)

/-- C4 counterexample: a 500 response to the pool-token call is retried (the
call then succeeds on the next attempt) rather than propagated, and a
transport error in the raw-log call is surfaced to the caller rather than
retried - both contrary to the claimed failure discipline. -/
theorem chain_client_fatal_discipline_counterexample :
    get_single_pool_token_async
        [NodeResp.http 500 "server error",
         NodeResp.http 200 "0x000000000000000000000000aaaaaaaaaaaaaaaaaaaaaaaaaaaaaaaaaaaaaaaa"] =
      some "0xaaaaaaaaaaaaaaaaaaaaaaaaaaaaaaaaaaaaaaaa" ∧
    get_raw_swap_logs [(NodeResp.transportError : NodeResp (List RawLog))] =
      some (Except.error ()) :=
  ⟨by decide, rfl⟩

/-- C4 (amended): the pool-token call (like the decimals and symbol calls)
retries every non-200 response - 429 and fatal statuses alike - and every
transport error indefinitely with a fixed 1-second backoff, returning only
on a 200 response; the raw-log call retries every non-200 response the same
way but propagates a transport error to the caller immediately. -/
theorem chain_client_retry_behavior_amended
    (pre1 : List (NodeResp String)) (body : String) (rest1 : List (NodeResp String))
    (pre2 : List (NodeResp (List RawLog))) (logs : List RawLog)
    (rest2 rest3 : List (NodeResp (List RawLog)))
    (h1 : ∀ r ∈ pre1, isNonSuccess r = true)
    (h2 : ∀ r ∈ pre2, isHttpNonSuccess r = true) :
    get_single_pool_token_async (pre1 ++ NodeResp.http 200 body :: rest1) =
      some (parse_pool_token_result body) ∧
    get_raw_swap_logs (pre2 ++ NodeResp.http 200 logs :: rest2) =
      some (Except.ok logs) ∧
    get_raw_swap_logs (NodeResp.transportError :: rest3) =
      some (Except.error ()) := by
  refine ⟨?_, ?_, rfl⟩
  · rw [get_single_pool_token_async_skips pre1 h1]
    simp [get_single_pool_token_async]
  · rw [get_raw_swap_logs_skips pre2 h2]
    simp [get_raw_swap_logs]

/-- C4 witness: a concrete junk prefix of a fatal status, a transport error
and a 429 is survived by the pool-token call, a 503 prefix is survived by
the raw-log call, and a leading transport error surfaces from the raw-log
call. -/
theorem chain_client_retry_behavior_amended_witness :
    get_single_pool_token_async
        ([NodeResp.http 500 "boom", NodeResp.transportError, NodeResp.http 429 "slow"] ++
          NodeResp.http 200
            "0x000000000000000000000000aaaaaaaaaaaaaaaaaaaaaaaaaaaaaaaaaaaaaaaa" :: []) =
      some (parse_pool_token_result
        "0x000000000000000000000000aaaaaaaaaaaaaaaaaaaaaaaaaaaaaaaaaaaaaaaa") ∧
    get_raw_swap_logs ([NodeResp.http 503 ([] : List RawLog)] ++
        NodeResp.http 200 ([] : List RawLog) :: []) =
      some (Except.ok ([] : List RawLog)) ∧
    get_raw_swap_logs (NodeResp.transportError :: ([] : List (NodeResp (List RawLog)))) =
      some (Except.error ()) :=
  chain_client_retry_behavior_amended
    [NodeResp.http 500 "boom", NodeResp.transportError, NodeResp.http 429 "slow"]
    "0x000000000000000000000000aaaaaaaaaaaaaaaaaaaaaaaaaaaaaaaaaaaaaaaa" []
    [NodeResp.http 503 []] [] [] [] (by decide) (by decide)

/-- C5: evaluating the resolvers at the failing inputs.  The pool resolver
re-raises the underlying exception unchanged (the typed
ContractNotFoundException raise after it is dead code), and the node-level
decimals call absorbs a permanent malformed-result error (the 0x returned
by eth_call for an address that is not a token contract) by retrying it
forever instead of surfacing a typed resolution error. -/
theorem resolver_typed_error_bug_evaluation :
    (Calculation.get_pool_tokens (fun _ => Except.error "not a contract") []
        "0xdead").result = Except.error (ResolveError.other "not a contract") ∧
    Node.get_token_decimals
        [NodeResp.http 200 "0x", NodeResp.http 200 "0x", NodeResp.http 200 "0x"] =
      none :=
  ⟨rfl, rfl⟩

/-- C9: resolving the same token address (and the same pool address) twice
from a cold cache issues exactly one chain fetch: the first resolution
fetches once, the second fetches zero times and returns a result identical
to the first. -/
theorem cache_idempotence
    (fetchD : String → Except String Nat)
    (fetchP : String → Except String (String × String))
    (cacheD : CacheMap Nat) (cacheP : CacheMap (String × String))
    (a b : String) (d : Nat) (pq : String × String)
    (hD : cacheGet cacheD a = none) (hDf : fetchD a = Except.ok d)
    (hP : cacheGet cacheP b = none) (hPf : fetchP b = Except.ok pq) :
    ((Calculation.get_token_decimals fetchD cacheD a).fetchCalls = 1 ∧
      (Calculation.get_token_decimals fetchD
        (Calculation.get_token_decimals fetchD cacheD a).cache a).fetchCalls = 0 ∧
      (Calculation.get_token_decimals fetchD
        (Calculation.get_token_decimals fetchD cacheD a).cache a).result =
        (Calculation.get_token_decimals fetchD cacheD a).result) ∧
    ((Calculation.get_pool_tokens fetchP cacheP b).fetchCalls = 1 ∧
      (Calculation.get_pool_tokens fetchP
        (Calculation.get_pool_tokens fetchP cacheP b).cache b).fetchCalls = 0 ∧
      (Calculation.get_pool_tokens fetchP
        (Calculation.get_pool_tokens fetchP cacheP b).cache b).result =
        (Calculation.get_pool_tokens fetchP cacheP b).result) := by
  have e1 : Calculation.get_token_decimals fetchD cacheD a =
      { result := Except.ok d, cache := cacheSet cacheD a d, fetchCalls := 1 } := by
    unfold Calculation.get_token_decimals
    rw [hD, hDf]
  have e2 : Calculation.get_token_decimals fetchD (cacheSet cacheD a d) a =
      { result := Except.ok d, cache := cacheSet (cacheSet cacheD a d) a d,
        fetchCalls := 0 } := by
    unfold Calculation.get_token_decimals
    rw [cacheGet_cacheSet_self]
  have e3 : Calculation.get_pool_tokens fetchP cacheP b =
      { result := Except.ok pq, cache := cacheSet cacheP b pq, fetchCalls := 1 } := by
    unfold Calculation.get_pool_tokens
    rw [hP, hPf]
  have e4 : Calculation.get_pool_tokens fetchP (cacheSet cacheP b pq) b =
      { result := Except.ok pq, cache := cacheSet (cacheSet cacheP b pq) b pq,
        fetchCalls := 0 } := by
    unfold Calculation.get_pool_tokens
    rw [cacheGet_cacheSet_self]
  simp [e1, e2, e3, e4]

/-- C9 witness: concrete cold caches, a constant chain, and one token and
one pool address. -/
theorem cache_idempotence_witness :
    ((Calculation.get_token_decimals (fun _ => Except.ok 18) [] "0xt").fetchCalls = 1 ∧
      (Calculation.get_token_decimals (fun _ => Except.ok 18)
        (Calculation.get_token_decimals (fun _ => Except.ok 18) [] "0xt").cache
        "0xt").fetchCalls = 0 ∧
      (Calculation.get_token_decimals (fun _ => Except.ok 18)
        (Calculation.get_token_decimals (fun _ => Except.ok 18) [] "0xt").cache
        "0xt").result =
        (Calculation.get_token_decimals (fun _ => Except.ok 18) [] "0xt").result) ∧
    ((Calculation.get_pool_tokens (fun _ => Except.ok ("0xa", "0xb")) [] "0xp").fetchCalls = 1 ∧
      (Calculation.get_pool_tokens (fun _ => Except.ok ("0xa", "0xb"))
        (Calculation.get_pool_tokens (fun _ => Except.ok ("0xa", "0xb")) [] "0xp").cache
        "0xp").fetchCalls = 0 ∧
      (Calculation.get_pool_tokens (fun _ => Except.ok ("0xa", "0xb"))
        (Calculation.get_pool_tokens (fun _ => Except.ok ("0xa", "0xb")) [] "0xp").cache
        "0xp").result =
        (Calculation.get_pool_tokens (fun _ => Except.ok ("0xa", "0xb")) [] "0xp").result) :=
  cache_idempotence (fun _ => Except.ok 18) (fun _ => Except.ok ("0xa", "0xb"))
    [] [] "0xt" "0xp" 18 ("0xa", "0xb") rfl rfl rfl rfl

end TokenPriceConverter
